import Mathlib

/-!
Verification of the two concrete helper operations of `BaseLLMService`
(`src/services/llms/base.py`): `_clean_response_text` and `_parse_response`.

Python strings are modelled as lists of characters (`PyStr`), JSON values as
the inductive type `Json`, and `json.loads` as an executable fuel-based
recursive-descent parser returning `Option Json` (decode failure = `none`,
mirroring the caught `json.JSONDecodeError`).  Exceptions that the Python code
can let escape (`AttributeError` from calling `.get` on a non-dict,
`TypeError` from iterating a non-iterable) are modelled with `Except PyErr`.
-/

namespace ReviewPR

/-- Python `str` modelled as a list of characters. -/
abbrev PyStr := List Char

/-- The characters removed by Python `str.strip()` (ASCII whitespace). -/
def isPySpace (c : Char) : Bool :=
  c = ' ' || c = '\t' || c = '\n' || c = '\r' || c = Char.ofNat 11 || c = Char.ofNat 12

/-- Python `text.strip()`: drop leading and trailing whitespace. -/
def pyStrip (s : PyStr) : PyStr :=
  ((s.dropWhile isPySpace).reverse.dropWhile isPySpace).reverse

/-- The 7-character opening fence marker checked by `_clean_response_text`. -/
def fenceOpen : PyStr := "```json".toList

/-- The 3-character closing fence marker checked by `_clean_response_text`. -/
def fenceClose : PyStr := "```".toList

/-- `if text.startswith('```json'): text = text[7:]`. -/
def stripOpenFence (t : PyStr) : PyStr :=
  if fenceOpen.isPrefixOf t then t.drop 7 else t

/-- `if text.endswith('```'): text = text[:-3]`. -/
def stripCloseFence (t : PyStr) : PyStr :=
  if fenceClose.isSuffixOf t then t.take (t.length - 3) else t

/-- `BaseLLMService._clean_response_text`:
`text.strip()`; strip a leading ```` ```json ```` (`text[7:]`); strip a
trailing ```` ``` ```` (`text[:-3]`); `strip()` again. -/
def clean_response_text (text : PyStr) : PyStr :=
  pyStrip (stripCloseFence (stripOpenFence (pyStrip text)))

/-- Modelled from the spec (section 4.2 algorithm): trim whitespace; if the
text begins with the 7-character fenced-JSON marker, strip exactly that
prefix; if the result ends with the 3-character closing marker, strip exactly
that suffix; trim again. -/
def cleanSpec (text : PyStr) : PyStr :=
  pyStrip
    ((fun s2 =>
        if fenceClose.isSuffixOf s2 then s2.take (s2.length - fenceClose.length) else s2)
      ((fun s1 =>
        if fenceOpen.isPrefixOf s1 then s1.drop fenceOpen.length else s1)
        (pyStrip text)))

/-- Generic JSON values, the result of decoding with `json.loads`.
Objects keep their key/value pairs in source order (duplicates included);
lookup takes the last occurrence, like a Python dict built incrementally. -/
inductive Json where
  | null : Json
  | bool (b : Bool) : Json
  | num (n : Int) : Json
  | str (s : PyStr) : Json
  | arr (elems : List Json) : Json
  | obj (kvs : List (PyStr × Json)) : Json

/-- Uncaught Python exceptions `_parse_response` can raise. -/
inductive PyErr where
  | attributeError : PyErr
  | typeError : PyErr
deriving DecidableEq

/-- JSON insignificant whitespace (space, tab, newline, carriage return). -/
def isJsonWs (c : Char) : Bool :=
  c = ' ' || c = '\t' || c = '\n' || c = '\r'

/-- Skip insignificant JSON whitespace. -/
def skipWs (cs : List Char) : List Char := cs.dropWhile isJsonWs

/-- Accumulate decimal digits into a natural number. -/
def digitsToNat (acc : Nat) : List Char → Nat × List Char
  | [] => (acc, [])
  | c :: rest =>
    if c.isDigit then digitsToNat (acc * 10 + (c.toNat - 48)) rest
    else (acc, c :: rest)

/-- Parse a JSON natural-number literal (`0`, or a nonzero digit followed by
digits; a leading `0` cannot be followed by more digits, as in RFC 8259). -/
def parseNatLit : List Char → Option (Nat × List Char)
  | [] => none
  | c :: rest =>
    if c = '0' then some (0, rest)
    else if c.isDigit then some (digitsToNat (c.toNat - 48) rest)
    else none

/-- Parse a JSON integer literal with optional leading minus sign. -/
def parseIntLit (cs : List Char) : Option (Json × List Char) :=
  match cs with
  | c :: rest =>
    if c = '-' then (parseNatLit rest).map (fun p => (Json.num (-(p.1 : Int)), p.2))
    else (parseNatLit cs).map (fun p => (Json.num (p.1 : Int), p.2))
  | [] => none

/-- Map a hexadecimal digit to its value. -/
def hexVal (c : Char) : Option Nat :=
  if c.isDigit then some (c.toNat - 48)
  else if 'a' ≤ c ∧ c ≤ 'f' then some (c.toNat - 87)
  else if 'A' ≤ c ∧ c ≤ 'F' then some (c.toNat - 55)
  else none

/-- Parse the body of a JSON string literal (the opening quote already
consumed), handling the escape sequences of RFC 8259 and rejecting raw
control characters, as Python `json.loads` does in strict mode. -/
def parseStrBody : List Char → Option (PyStr × List Char)
  | [] => none
  | c :: rest =>
    if c = '"' then some ([], rest)
    else if c = '\\' then
      match rest with
      | [] => none
      | e :: rest2 =>
        if e = 'u' then
          match rest2 with
          | h1 :: h2 :: h3 :: h4 :: rest3 =>
            match hexVal h1, hexVal h2, hexVal h3, hexVal h4 with
            | some a, some b, some c3, some d =>
              (parseStrBody rest3).map
                (fun p => (Char.ofNat (((a * 16 + b) * 16 + c3) * 16 + d) :: p.1, p.2))
            | _, _, _, _ => none
          | _ => none
        else
          match
            (if e = '"' then some '"'
             else if e = '\\' then some '\\'
             else if e = '/' then some '/'
             else if e = 'b' then some (Char.ofNat 8)
             else if e = 'f' then some (Char.ofNat 12)
             else if e = 'n' then some '\n'
             else if e = 'r' then some '\r'
             else if e = 't' then some '\t'
             else none : Option Char) with
          | some d => (parseStrBody rest2).map (fun p => (d :: p.1, p.2))
          | none => none
    else if c.toNat < 32 then none
    else (parseStrBody rest).map (fun p => (c :: p.1, p.2))

mutual

/-- Parse one JSON value (no leading whitespace), returning it and the rest. -/
def parseValue : Nat → List Char → Option (Json × List Char)
  | 0, _ => none
  | f + 1, cs =>
    if ("null".toList).isPrefixOf cs then some (Json.null, cs.drop 4)
    else if ("true".toList).isPrefixOf cs then some (Json.bool true, cs.drop 4)
    else if ("false".toList).isPrefixOf cs then some (Json.bool false, cs.drop 5)
    else
      match cs with
      | [] => none
      | c :: rest =>
        if c = '"' then (parseStrBody rest).map (fun p => (Json.str p.1, p.2))
        else if c = '[' then
          match skipWs rest with
          | c2 :: rest2 =>
            if c2 = ']' then some (Json.arr [], rest2)
            else (parseArrElems f (skipWs rest)).map (fun p => (Json.arr p.1, p.2))
          | [] => none
        else if c = Char.ofNat 123 then
          match skipWs rest with
          | c2 :: rest2 =>
            if c2 = Char.ofNat 125 then some (Json.obj [], rest2)
            else (parseObjMembers f (skipWs rest)).map (fun p => (Json.obj p.1, p.2))
          | [] => none
        else if c = '-' || c.isDigit then parseIntLit cs
        else none

/-- Parse the comma-separated elements of a non-empty JSON array, through the
closing bracket. -/
def parseArrElems : Nat → List Char → Option (List Json × List Char)
  | 0, _ => none
  | f + 1, cs =>
    match parseValue f cs with
    | none => none
    | some (v, rest) =>
      match skipWs rest with
      | c :: rest2 =>
        if c = ',' then (parseArrElems f (skipWs rest2)).map (fun p => (v :: p.1, p.2))
        else if c = ']' then some ([v], rest2)
        else none
      | [] => none

/-- Parse the comma-separated members of a non-empty JSON object, through the
closing brace. -/
def parseObjMembers : Nat → List Char → Option (List (PyStr × Json) × List Char)
  | 0, _ => none
  | f + 1, cs =>
    match cs with
    | [] => none
    | c :: rest =>
      if c = '"' then
        match parseStrBody rest with
        | none => none
        | some (k, rest1) =>
          match skipWs rest1 with
          | c2 :: rest2 =>
            if c2 = ':' then
              match parseValue f (skipWs rest2) with
              | none => none
              | some (v, rest3) =>
                match skipWs rest3 with
                | c3 :: rest4 =>
                  if c3 = ',' then
                    (parseObjMembers f (skipWs rest4)).map (fun p => ((k, v) :: p.1, p.2))
                  else if c3 = Char.ofNat 125 then some ([(k, v)], rest4)
                  else none
                | [] => none
            else none
          | [] => none
      else none

end

/-- `json.loads`: parse a complete JSON document, allowing surrounding
whitespace; any syntax error yields `none` (Python raises
`json.JSONDecodeError`, which `_parse_response` catches). -/
def json_loads (s : PyStr) : Option Json :=
  match parseValue (4 * s.length + 8) (skipWs s) with
  | some (v, rest) => if (skipWs rest).isEmpty then some v else none
  | none => none

/-- Python `dict` lookup for a decoded JSON object: with duplicate keys the
last occurrence wins (later assignments overwrite earlier ones). -/
def objGet (kvs : List (PyStr × Json)) (k : PyStr) : Option Json :=
  match kvs with
  | [] => none
  | kv :: rest =>
    match objGet rest k with
    | some v => some v
    | none => if kv.1 = k then some kv.2 else none

/-- The distinct keys of an association list, in first-occurrence order —
the order in which Python iterates a dict's keys. -/
def distinctKeys : List PyStr → List PyStr
  | [] => []
  | k :: rest => k :: (distinctKeys rest).filter (fun k2 => k2 ≠ k)

/-- Python truthiness of a decoded JSON value (`bool(x)`). -/
def pyTruthy : Json → Bool
  | Json.null => false
  | Json.bool b => b
  | Json.num n => n ≠ 0
  | Json.str s => !s.isEmpty
  | Json.arr l => !l.isEmpty
  | Json.obj kvs => !kvs.isEmpty

/-- Python iteration `for x in v`: lists yield their elements, strings their
characters (as 1-character strings), dicts their keys; anything else raises
`TypeError`. -/
def pyIter : Json → Except PyErr (List Json)
  | Json.arr l => Except.ok l
  | Json.str s => Except.ok (s.map (fun c => Json.str [c]))
  | Json.obj kvs => Except.ok ((distinctKeys (kvs.map (fun kv => kv.1))).map Json.str)
  | _ => Except.error PyErr.typeError

/-- Key `"reviews"`. -/
def reviewsKey : PyStr := "reviews".toList

/-- Key `"lineNumber"`. -/
def lineNumberKey : PyStr := "lineNumber".toList

/-- Key `"reviewComment"`. -/
def reviewCommentKey : PyStr := "reviewComment".toList

/-- Truthiness of `review.get(k)` (`None`, hence falsy, when absent). -/
def getTruthy (kvs : List (PyStr × Json)) (k : PyStr) : Bool :=
  match objGet kvs k with
  | some v => pyTruthy v
  | none => false

/-- The list-comprehension filter of `_parse_response`:
`isinstance(review, dict) and review.get("lineNumber") and
review.get("reviewComment")`. -/
def keepReview : Json → Bool
  | Json.obj kvs => getTruthy kvs lineNumberKey && getTruthy kvs reviewCommentKey
  | _ => false

/-- The body of the `try` block applied to the decoded value `data`:
`data.get("reviews", [])` (an `AttributeError` if `data` is not a dict),
then the filtering list comprehension (a `TypeError` if the reviews value is
not iterable). -/
def parse_data : Json → Except PyErr (List Json)
  | Json.obj kvs =>
    match pyIter ((objGet kvs reviewsKey).getD (Json.arr [])) with
    | Except.ok elems => Except.ok (elems.filter keepReview)
    | Except.error e => Except.error e
  | _ => Except.error PyErr.attributeError

/-- `BaseLLMService._parse_response`: empty input short-circuits to `[]`;
a JSON decode failure is caught and yields `[]`; otherwise the decoded value
is processed by `parse_data` (whose exceptions are not caught). -/
def parse_response (s : PyStr) : Except PyErr (List Json) :=
  if s.isEmpty then Except.ok []
  else
    match json_loads s with
    | none => Except.ok []
    | some data => parse_data data

/-! ### Support lemmas about `pyStrip` -/

theorem dropWhile_append_of_all {p : Char → Bool} (ws l : PyStr)
    (h : ∀ c ∈ ws, p c = true) : (ws ++ l).dropWhile p = l.dropWhile p := by
  induction ws with
  | nil => rfl
  | cons c ws ih =>
    rw [List.cons_append, List.dropWhile_cons_of_pos (h c (List.mem_cons_self c ws))]
    exact ih (fun x hx => h x (List.mem_cons_of_mem c hx))

theorem dropWhile_self_idem {p : Char → Bool} (l : PyStr) :
    (l.dropWhile p).dropWhile p = l.dropWhile p := by
  induction l with
  | nil => rfl
  | cons c l ih =>
    by_cases hc : p c = true
    · rw [List.dropWhile_cons_of_pos hc]; exact ih
    · rw [List.dropWhile_cons_of_neg (by simp [hc]),
        List.dropWhile_cons_of_neg (by simp [hc])]

theorem head_not_of_dropWhile_fixed {p : Char → Bool} (c : Char) (r : PyStr)
    (h : (c :: r).dropWhile p = c :: r) : p c = false := by
  cases hc : p c with
  | false => rfl
  | true =>
    exfalso
    rw [List.dropWhile_cons_of_pos hc] at h
    have hlen : (r.dropWhile p).length ≤ r.length := (List.dropWhile_sublist p).length_le
    rw [h] at hlen
    rw [List.length_cons] at hlen
    omega

theorem dropWhile_fixed_of_prefix {p : Char → Bool} (m u : PyStr)
    (hu : u.dropWhile p = u) (hpre : m <+: u) : m.dropWhile p = m := by
  cases m with
  | nil => rfl
  | cons c r =>
    obtain ⟨t, ht⟩ := hpre
    rw [List.cons_append] at ht
    subst ht
    have hc : p c = false :=
      head_not_of_dropWhile_fixed c (r ++ t) hu
    exact List.dropWhile_cons_of_neg (by simp [hc])

theorem pyStrip_idem (s : PyStr) : pyStrip (pyStrip s) = pyStrip s := by
  unfold pyStrip
  have hu : (s.dropWhile isPySpace).dropWhile isPySpace = s.dropWhile isPySpace :=
    dropWhile_self_idem _
  set u := s.dropWhile isPySpace with hudef
  have hmpre : ((u.reverse.dropWhile isPySpace).reverse) <+: u := by
    have hsuf : (u.reverse.dropWhile isPySpace) <:+ u.reverse := List.dropWhile_suffix _
    have := (List.reverse_prefix).mpr hsuf
    rwa [List.reverse_reverse] at this
  have hm1 : ((u.reverse.dropWhile isPySpace).reverse).dropWhile isPySpace =
      (u.reverse.dropWhile isPySpace).reverse :=
    dropWhile_fixed_of_prefix _ u hu hmpre
  rw [hm1, List.reverse_reverse, dropWhile_self_idem]

theorem pyStrip_eq_nil_of_all (s : PyStr) (h : ∀ c ∈ s, isPySpace c = true) :
    pyStrip s = [] := by
  unfold pyStrip
  rw [List.dropWhile_eq_nil_iff.mpr (fun x hx => h x hx)]
  rfl

theorem fenceOpen_cons : fenceOpen = Char.ofNat 96 :: "``json".toList := by decide

theorem fenceClose_rev : fenceClose.reverse = Char.ofNat 96 :: "``".toList := by decide

theorem pyStrip_fenced (ws1 ws2 b : PyStr)
    (h1 : ∀ c ∈ ws1, isPySpace c = true) (h2 : ∀ c ∈ ws2, isPySpace c = true) :
    pyStrip (ws1 ++ (fenceOpen ++ (b ++ (fenceClose ++ ws2)))) =
      fenceOpen ++ (b ++ fenceClose) := by
  unfold pyStrip
  rw [dropWhile_append_of_all ws1 _ h1, fenceOpen_cons, List.cons_append,
    List.dropWhile_cons_of_neg (by decide), ← List.cons_append, ← fenceOpen_cons]
  simp only [List.reverse_append, List.append_assoc]
  rw [dropWhile_append_of_all ws2.reverse _ (fun c hc => h2 c (List.mem_reverse.mp hc)),
    fenceClose_rev, List.cons_append, List.dropWhile_cons_of_neg (by decide),
    ← List.cons_append, ← fenceClose_rev]
  simp [List.reverse_append, List.append_assoc]

/-! ### Support lemmas about `clean_response_text` -/

theorem isPrefixOf_append_self (l₁ l₂ : PyStr) : l₁.isPrefixOf (l₁ ++ l₂) = true :=
  (List.isPrefixOf_iff_prefix).mpr (List.prefix_append l₁ l₂)

theorem isSuffixOf_append_self (l₁ l₂ : PyStr) : l₁.isSuffixOf (l₂ ++ l₁) = true :=
  (List.isSuffixOf_iff_suffix).mpr (List.suffix_append l₂ l₁)

theorem stripOpenFence_of_decomp (mid : PyStr) :
    stripOpenFence (fenceOpen ++ mid) = mid := by
  unfold stripOpenFence
  rw [if_pos (isPrefixOf_append_self fenceOpen mid)]
  exact List.drop_left fenceOpen mid

theorem stripCloseFence_of_decomp (mid : PyStr) :
    stripCloseFence (mid ++ fenceClose) = mid := by
  unfold stripCloseFence
  rw [if_pos (isSuffixOf_append_self fenceClose mid)]
  have hlen : (mid ++ fenceClose).length - 3 = mid.length := by
    rw [List.length_append]
    exact Nat.add_sub_cancel mid.length 3
  rw [hlen]
  exact List.take_left mid fenceClose

theorem stripOpenFence_of_no_marker (t : PyStr) (h : fenceOpen.isPrefixOf t = false) :
    stripOpenFence t = t := by
  unfold stripOpenFence
  rw [if_neg (by simp [h])]

theorem stripCloseFence_of_no_marker (t : PyStr) (h : fenceClose.isSuffixOf t = false) :
    stripCloseFence t = t := by
  unfold stripCloseFence
  rw [if_neg (by simp [h])]

theorem clean_eq_of_decomp_both (t mid : PyStr)
    (h : pyStrip t = fenceOpen ++ (mid ++ fenceClose)) :
    clean_response_text t = pyStrip mid := by
  unfold clean_response_text
  rw [h, stripOpenFence_of_decomp, stripCloseFence_of_decomp]

theorem clean_eq_of_decomp_open (t mid : PyStr)
    (h : pyStrip t = fenceOpen ++ mid) (h2 : fenceClose.isSuffixOf mid = false) :
    clean_response_text t = pyStrip mid := by
  unfold clean_response_text
  rw [h, stripOpenFence_of_decomp, stripCloseFence_of_no_marker mid h2]

theorem clean_eq_of_decomp_close (t mid : PyStr)
    (h : pyStrip t = mid ++ fenceClose) (h2 : fenceOpen.isPrefixOf (pyStrip t) = false) :
    clean_response_text t = pyStrip mid := by
  unfold clean_response_text
  rw [stripOpenFence_of_no_marker _ h2, h, stripCloseFence_of_decomp]

theorem clean_of_no_fence (t : PyStr)
    (h1 : fenceOpen.isPrefixOf (pyStrip t) = false)
    (h2 : fenceClose.isSuffixOf (pyStrip t) = false) :
    clean_response_text t = pyStrip t := by
  unfold clean_response_text
  rw [stripOpenFence_of_no_marker _ h1, stripCloseFence_of_no_marker _ h2, pyStrip_idem]

theorem clean_stripped (t : PyStr) :
    pyStrip (clean_response_text t) = clean_response_text t := by
  unfold clean_response_text
  exact pyStrip_idem _

/-! ### Support lemmas about `parse_response` -/

theorem json_loads_nil : json_loads [] = none := rfl

theorem parse_response_of_loads (s : PyStr) (v : Json) (h : json_loads s = some v) :
    parse_response s = parse_data v := by
  have hne : s.isEmpty = false := by
    cases s with
    | nil => rw [json_loads_nil] at h; exact absurd h (by simp)
    | cons c cs => rfl
  simp [parse_response, hne, h]

theorem parse_response_of_loads_none (s : PyStr) (h : json_loads s = none) :
    parse_response s = Except.ok [] := by
  cases hs : s.isEmpty with
  | true => simp [parse_response, hs]
  | false => simp [parse_response, hs, h]

theorem parse_data_obj_arr (kvs : List (PyStr × Json)) (elems : List Json)
    (h : objGet kvs reviewsKey = some (Json.arr elems)) :
    parse_data (Json.obj kvs) = Except.ok (elems.filter keepReview) := by
  simp [parse_data, h, pyIter]

theorem parse_data_obj_missing (kvs : List (PyStr × Json))
    (h : objGet kvs reviewsKey = none) :
    parse_data (Json.obj kvs) = Except.ok [] := by
  simp [parse_data, h, pyIter]

theorem parse_data_obj_ok (kvs : List (PyStr × Json)) (elems : List Json)
    (hit : pyIter ((objGet kvs reviewsKey).getD (Json.arr [])) = Except.ok elems) :
    parse_data (Json.obj kvs) = Except.ok (elems.filter keepReview) := by
  simp [parse_data, hit]

theorem parse_data_obj_err (kvs : List (PyStr × Json)) (e : PyErr)
    (hit : pyIter ((objGet kvs reviewsKey).getD (Json.arr [])) = Except.error e) :
    parse_data (Json.obj kvs) = Except.error e := by
  simp [parse_data, hit]

theorem getTruthy_eq (kvs : List (PyStr × Json)) (k : PyStr) :
    getTruthy kvs k = pyTruthy ((objGet kvs k).getD Json.null) := by
  unfold getTruthy
  cases objGet kvs k <;> rfl

theorem keepReview_iff (r : Json) :
    keepReview r = true ↔
      ∃ rk, r = Json.obj rk ∧
        pyTruthy ((objGet rk lineNumberKey).getD Json.null) = true ∧
        pyTruthy ((objGet rk reviewCommentKey).getD Json.null) = true := by
  cases r with
  | obj kvs =>
    constructor
    · intro h
      have h' : (getTruthy kvs lineNumberKey && getTruthy kvs reviewCommentKey) = true := h
      rw [Bool.and_eq_true, getTruthy_eq, getTruthy_eq] at h'
      exact ⟨kvs, rfl, h'.1, h'.2⟩
    · rintro ⟨rk, heq, hln, hrc⟩
      injection heq with h2
      subst h2
      show (getTruthy kvs lineNumberKey && getTruthy kvs reviewCommentKey) = true
      rw [Bool.and_eq_true, getTruthy_eq, getTruthy_eq]
      exact ⟨hln, hrc⟩
  | null => exact ⟨(fun h => nomatch h), (fun ⟨rk, heq, hl, hr⟩ => Json.noConfusion heq)⟩
  | bool b => exact ⟨(fun h => nomatch h), (fun ⟨rk, heq, hl, hr⟩ => Json.noConfusion heq)⟩
  | num n => exact ⟨(fun h => nomatch h), (fun ⟨rk, heq, hl, hr⟩ => Json.noConfusion heq)⟩
  | str s => exact ⟨(fun h => nomatch h), (fun ⟨rk, heq, hl, hr⟩ => Json.noConfusion heq)⟩
  | arr l => exact ⟨(fun h => nomatch h), (fun ⟨rk, heq, hl, hr⟩ => Json.noConfusion heq)⟩

theorem truthy_get_some (rk : List (PyStr × Json)) (k : PyStr)
    (h : pyTruthy ((objGet rk k).getD Json.null) = true) :
    ∃ v, objGet rk k = some v ∧ v ≠ Json.null ∧ v ≠ Json.str [] ∧ pyTruthy v = true := by
  cases hog : objGet rk k with
  | none => rw [hog] at h; simp [pyTruthy] at h
  | some v =>
    rw [hog] at h
    simp only [Option.getD_some] at h
    refine ⟨v, rfl, ?_, ?_, h⟩
    · intro hv; rw [hv] at h; simp [pyTruthy] at h
    · intro hv; rw [hv] at h; simp [pyTruthy, List.isEmpty] at h

/-! ### Claim theorems -/

/-- C3: `clean_response_text` equals the spec pipeline (trim; strip the
7-character ```` ```json ```` prefix if present; strip the 3-character
```` ``` ```` suffix if present; trim again); an all-whitespace input yields
the empty string, and an input whose trimmed form carries neither fence
marker is returned trimmed but otherwise unchanged. -/
theorem claim_C3 (t : PyStr) :
    clean_response_text t = cleanSpec t ∧
    ((∀ c ∈ t, isPySpace c = true) → clean_response_text t = []) ∧
    (fenceOpen.isPrefixOf (pyStrip t) = false →
      fenceClose.isSuffixOf (pyStrip t) = false →
      clean_response_text t = pyStrip t) := by
  refine ⟨rfl, ?_, clean_of_no_fence t⟩
  intro h
  unfold clean_response_text
  rw [pyStrip_eq_nil_of_all t h]
  rfl

/-- C3 witness: the theorem applied to the whitespace-only input `"  "`. -/
theorem claim_C3_witness :
    clean_response_text ("  ".toList) = cleanSpec ("  ".toList) ∧
    clean_response_text ("  ".toList) = [] ∧
    clean_response_text ("  ".toList) = pyStrip ("  ".toList) := by
  have h := claim_C3 ("  ".toList)
  exact ⟨h.1, h.2.1 (by decide), h.2.2 (by decide) (by decide)⟩

/-- C4 counterexample: the input ```` ```json```jsonX``` ```` begins with the
7-character opening marker, yet `clean_response_text` is not idempotent on
it: one pass gives ```` ```jsonX ```` and a second pass gives `X`. -/
theorem claim_C4_counterexample :
    fenceOpen.isPrefixOf (pyStrip ("```json```jsonX```".toList)) = true ∧
    clean_response_text (clean_response_text ("```json```jsonX```".toList)) ≠
      clean_response_text ("```json```jsonX```".toList) := by
  exact ⟨by decide, by decide⟩

/-- C4 (amended): for text whose trimmed form begins with the 7-character
opening marker and/or ends with the 3-character closing marker,
`clean_response_text` removes exactly those markers once each and trims the
surrounding whitespace; it is idempotent at `t` whenever the once-cleaned
result does not itself begin with the opening marker or end with the closing
marker. -/
theorem claim_C4_amended (t : PyStr)
    (_hfence : fenceOpen.isPrefixOf (pyStrip t) = true ∨
      fenceClose.isSuffixOf (pyStrip t) = true) :
    (∀ mid, pyStrip t = fenceOpen ++ (mid ++ fenceClose) →
      clean_response_text t = pyStrip mid) ∧
    (∀ mid, pyStrip t = fenceOpen ++ mid → fenceClose.isSuffixOf mid = false →
      clean_response_text t = pyStrip mid) ∧
    (∀ mid, pyStrip t = mid ++ fenceClose → fenceOpen.isPrefixOf (pyStrip t) = false →
      clean_response_text t = pyStrip mid) ∧
    (fenceOpen.isPrefixOf (clean_response_text t) = false →
      fenceClose.isSuffixOf (clean_response_text t) = false →
      clean_response_text (clean_response_text t) = clean_response_text t) := by
  refine ⟨clean_eq_of_decomp_both t, clean_eq_of_decomp_open t,
    clean_eq_of_decomp_close t, ?_⟩
  intro h1 h2
  have e := clean_stripped t
  have h1' : fenceOpen.isPrefixOf (pyStrip (clean_response_text t)) = false := by
    rw [e]; exact h1
  have h2' : fenceClose.isSuffixOf (pyStrip (clean_response_text t)) = false := by
    rw [e]; exact h2
  rw [clean_of_no_fence (clean_response_text t) h1' h2', e]

/-- C4 witness: on ```` ```jsonX``` ```` the markers are removed once each,
and the cleaned result `X` carries no residual marker, so a second cleaning
pass is the identity. -/
theorem claim_C4_witness :
    clean_response_text ("```jsonX```".toList) = "X".toList ∧
    clean_response_text (clean_response_text ("```jsonX```".toList)) =
      clean_response_text ("```jsonX```".toList) := by
  have h := claim_C4_amended ("```jsonX```".toList) (Or.inl (by decide))
  constructor
  · rw [h.1 ("X".toList) (by decide)]; decide
  · exact h.2.2.2 (by decide) (by decide)

/-- C5: `parse_response` returns an empty sequence, without raising, on
empty input (no parse attempt) and whenever JSON decoding of the input
fails; no reviews are salvaged from malformed text. -/
theorem claim_C5 (s : PyStr) (h : s = [] ∨ json_loads s = none) :
    parse_response s = Except.ok [] := by
  cases h with
  | inl h => rw [h]; rfl
  | inr h => exact parse_response_of_loads_none s h

/-- C5 witness: `parse_response "not json"` returns the empty sequence. -/
theorem claim_C5_witness : parse_response ("not json".toList) = Except.ok [] :=
  claim_C5 ("not json".toList) (Or.inr rfl)

/-- C6: if the input decodes to a JSON object with no `"reviews"` key,
`parse_response` treats the reviews sequence as empty and returns an empty
sequence without error. -/
theorem claim_C6 (s : PyStr) (kvs : List (PyStr × Json))
    (h1 : json_loads s = some (Json.obj kvs)) (h2 : objGet kvs reviewsKey = none) :
    parse_response s = Except.ok [] := by
  rw [parse_response_of_loads s _ h1]
  exact parse_data_obj_missing kvs h2

/-- C6 witness: the theorem applied to the decoded form of
`\x7b"other": 1\x7d`. -/
theorem claim_C6_witness : parse_response ("\x7b\"other\": 1\x7d".toList) = Except.ok [] :=
  claim_C6 ("\x7b\"other\": 1\x7d".toList) [("other".toList, Json.num 1)] rfl rfl

/-- C8: for a model response consisting of a JSON body wrapped in the
opening fence ```` ```json ```` and the closing fence ```` ``` ```` with
surrounding whitespace, parsing the cleaned response yields the same
comments as parsing the unfenced body directly. -/
theorem claim_C8 (ws1 ws2 b : PyStr)
    (h1 : ∀ c ∈ ws1, isPySpace c = true) (h2 : ∀ c ∈ ws2, isPySpace c = true)
    (hb : pyStrip b = b) :
    parse_response
        (clean_response_text (ws1 ++ (fenceOpen ++ (b ++ (fenceClose ++ ws2))))) =
      parse_response b := by
  have hc : clean_response_text (ws1 ++ (fenceOpen ++ (b ++ (fenceClose ++ ws2)))) =
      pyStrip b :=
    clean_eq_of_decomp_both _ b (pyStrip_fenced ws1 ws2 b h1 h2)
  rw [hc, hb]

/-- C8 witness: the theorem applied to a fenced `\x7b"reviews": []\x7d`
body with a leading newline and a trailing space. -/
theorem claim_C8_witness :
    parse_response
        (clean_response_text ("\n".toList ++ (fenceOpen ++
          ("\x7b\"reviews\": []\x7d".toList ++ (fenceClose ++ " ".toList))))) =
      parse_response ("\x7b\"reviews\": []\x7d".toList) :=
  claim_C8 _ _ _ (by decide) (by decide) (by decide)

/-- All the elements of a list of JSON strings fail the review filter. -/
theorem filter_keepReview_map_str (l : List PyStr) :
    (l.map Json.str).filter keepReview = [] := by
  rw [List.filter_eq_nil_iff]
  intro a ha
  obtain ⟨cs, hcs, hrfl⟩ := List.mem_map.mp ha
  subst hrfl
  intro hcontra
  exact nomatch hcontra

/-- C1 counterexample: the input `"1"` decodes successfully to the JSON
number `1`, on which `data.get("reviews", [])` raises an uncaught
`AttributeError`, so `parse_response` does propagate an exception. -/
theorem claim_C1_counterexample :
    parse_response ("1".toList) = Except.error PyErr.attributeError := rfl

/-- C1 (amended): `parse_response` returns without raising exactly when JSON
decoding fails (including empty input) or the input decodes to a JSON object
whose `"reviews"` value (defaulting to an empty array) is iterable — an
array, string, or object.  On an input decoding to a top-level non-object it
raises `AttributeError`, and on an object whose `"reviews"` value is a
number, boolean, or null it raises `TypeError`; every other failure mode
degrades to an empty result. -/
theorem claim_C1_amended (s : PyStr) :
    (∃ l, parse_response s = Except.ok l) ↔
      (json_loads s = none ∨
        ∃ kvs, json_loads s = some (Json.obj kvs) ∧
          ∃ elems, pyIter ((objGet kvs reviewsKey).getD (Json.arr [])) =
            Except.ok elems) := by
  cases hs : s.isEmpty with
  | true =>
    have hnil : s = [] := List.isEmpty_iff.mp hs
    subst hnil
    exact ⟨fun _ => Or.inl json_loads_nil, fun _ => ⟨[], rfl⟩⟩
  | false =>
    cases hj : json_loads s with
    | none =>
      exact ⟨fun _ => Or.inl rfl, fun _ => ⟨[], parse_response_of_loads_none s hj⟩⟩
    | some v =>
      rw [parse_response_of_loads s v hj]
      cases v with
      | obj kvs =>
        constructor
        · rintro ⟨l, hl⟩
          refine Or.inr ⟨kvs, rfl, ?_⟩
          cases hit : pyIter ((objGet kvs reviewsKey).getD (Json.arr [])) with
          | ok elems => exact ⟨elems, rfl⟩
          | error e =>
            rw [parse_data_obj_err kvs e hit] at hl
            exact nomatch hl
        · rintro (hnone | ⟨kvs2, heq, elems, hit⟩)
          · exact Option.noConfusion hnone
          · injection heq with heq2
            injection heq2 with heq3
            subst heq3
            exact ⟨elems.filter keepReview, parse_data_obj_ok kvs elems hit⟩
      | null =>
        constructor
        · rintro ⟨l, hl⟩; exact nomatch hl
        · rintro (hnone | ⟨kvs2, heq, elems, hit⟩)
          · exact Option.noConfusion hnone
          · injection heq with heq2; exact Json.noConfusion heq2
      | bool b =>
        constructor
        · rintro ⟨l, hl⟩; exact nomatch hl
        · rintro (hnone | ⟨kvs2, heq, elems, hit⟩)
          · exact Option.noConfusion hnone
          · injection heq with heq2; exact Json.noConfusion heq2
      | num n =>
        constructor
        · rintro ⟨l, hl⟩; exact nomatch hl
        · rintro (hnone | ⟨kvs2, heq, elems, hit⟩)
          · exact Option.noConfusion hnone
          · injection heq with heq2; exact Json.noConfusion heq2
      | str cs =>
        constructor
        · rintro ⟨l, hl⟩; exact nomatch hl
        · rintro (hnone | ⟨kvs2, heq, elems, hit⟩)
          · exact Option.noConfusion hnone
          · injection heq with heq2; exact Json.noConfusion heq2
      | arr elems2 =>
        constructor
        · rintro ⟨l, hl⟩; exact nomatch hl
        · rintro (hnone | ⟨kvs2, heq, elems, hit⟩)
          · exact Option.noConfusion hnone
          · injection heq with heq2; exact Json.noConfusion heq2

/-- C2: for a successfully decoded object whose `"reviews"` value is an
array, `parse_response` keeps exactly the elements that are mappings with a
truthy `"lineNumber"` value and a truthy `"reviewComment"` value, and every
emitted comment therefore carries both keys with non-null, non-empty-string
values. -/
theorem claim_C2 (s : PyStr) (kvs : List (PyStr × Json)) (elems : List Json)
    (h1 : json_loads s = some (Json.obj kvs))
    (h2 : objGet kvs reviewsKey = some (Json.arr elems)) :
    parse_response s = Except.ok (elems.filter keepReview) ∧
    (∀ r, keepReview r = true ↔
      ∃ rk, r = Json.obj rk ∧
        pyTruthy ((objGet rk lineNumberKey).getD Json.null) = true ∧
        pyTruthy ((objGet rk reviewCommentKey).getD Json.null) = true) ∧
    (∀ r ∈ elems.filter keepReview,
      ∃ rk, r = Json.obj rk ∧
        (∃ lv, objGet rk lineNumberKey = some lv ∧ lv ≠ Json.null ∧ lv ≠ Json.str []) ∧
        (∃ cv, objGet rk reviewCommentKey = some cv ∧ cv ≠ Json.null ∧ cv ≠ Json.str [])) := by
  refine ⟨?_, keepReview_iff, ?_⟩
  · rw [parse_response_of_loads s _ h1]
    exact parse_data_obj_arr kvs elems h2
  · intro r hr
    obtain ⟨rk, hrk, hln, hrc⟩ := (keepReview_iff r).mp (List.mem_filter.mp hr).2
    obtain ⟨lv, hlv, hlvn, hlvs, hlvt⟩ := truthy_get_some rk lineNumberKey hln
    obtain ⟨cv, hcv, hcvn, hcvs, hcvt⟩ := truthy_get_some rk reviewCommentKey hrc
    exact ⟨rk, hrk, ⟨lv, hlv, hlvn, hlvs⟩, ⟨cv, hcv, hcvn, hcvs⟩⟩

/-- The decoded `"reviews"` array of the spec's three-element example. -/
def exampleReviews : List Json :=
  [Json.obj [(lineNumberKey, Json.num 5), (reviewCommentKey, Json.str ("ok".toList))],
   Json.obj [(lineNumberKey, Json.str []), (reviewCommentKey, Json.str ("x".toList))],
   Json.obj [(reviewCommentKey, Json.str ("y".toList))]]

set_option maxRecDepth 100000 in
/-- C2 witness: on the spec's example only the first element survives — the
second is dropped for its empty line number, the third for its missing line
number. -/
theorem claim_C2_witness :
    parse_response ("\x7b\"reviews\": [\x7b\"lineNumber\": 5, \"reviewComment\": \"ok\"\x7d, \x7b\"lineNumber\": \"\", \"reviewComment\": \"x\"\x7d, \x7b\"reviewComment\": \"y\"\x7d]\x7d".toList) =
      Except.ok [Json.obj [(lineNumberKey, Json.num 5),
        (reviewCommentKey, Json.str ("ok".toList))]] := by
  have h := claim_C2 ("\x7b\"reviews\": [\x7b\"lineNumber\": 5, \"reviewComment\": \"ok\"\x7d, \x7b\"lineNumber\": \"\", \"reviewComment\": \"x\"\x7d, \x7b\"reviewComment\": \"y\"\x7d]\x7d".toList)
    [(reviewsKey, Json.arr exampleReviews)] exampleReviews rfl rfl
  exact h.1.trans rfl

/-- C7: the comments returned by `parse_response` are exactly the kept
elements in their original `"reviews"`-array order — the result is the
order-preserving filter of the array, hence a sublist of it, with no
re-sorting and no de-duplication. -/
theorem claim_C7 (s : PyStr) (kvs : List (PyStr × Json)) (elems : List Json)
    (h1 : json_loads s = some (Json.obj kvs))
    (h2 : objGet kvs reviewsKey = some (Json.arr elems)) :
    parse_response s = Except.ok (elems.filter keepReview) ∧
    List.Sublist (elems.filter keepReview) elems := by
  refine ⟨?_, List.filter_sublist elems⟩
  rw [parse_response_of_loads s _ h1]
  exact parse_data_obj_arr kvs elems h2

/-- A valid review entry used twice in the C7 witness input. -/
def dupReview : Json :=
  Json.obj [(lineNumberKey, Json.num 1), (reviewCommentKey, Json.str ("a".toList))]

set_option maxRecDepth 100000 in
/-- C7 witness: a duplicated valid entry is kept twice, in order. -/
theorem claim_C7_witness :
    parse_response ("\x7b\"reviews\": [\x7b\"lineNumber\": 1, \"reviewComment\": \"a\"\x7d, \x7b\"lineNumber\": 1, \"reviewComment\": \"a\"\x7d]\x7d".toList) =
      Except.ok [dupReview, dupReview] := by
  have h := claim_C7 ("\x7b\"reviews\": [\x7b\"lineNumber\": 1, \"reviewComment\": \"a\"\x7d, \x7b\"lineNumber\": 1, \"reviewComment\": \"a\"\x7d]\x7d".toList)
    [(reviewsKey, Json.arr [dupReview, dupReview])] [dupReview, dupReview] rfl rfl
  exact h.1.trans rfl

/-- C9 (implicit): each kept review entry is emitted unmodified — every
element of the result is literally an element of the decoded `"reviews"`
array, so extra keys are preserved and the two required values pass through
without conversion. -/
theorem claim_C9 (s : PyStr) (kvs : List (PyStr × Json)) (elems : List Json)
    (h1 : json_loads s = some (Json.obj kvs))
    (h2 : objGet kvs reviewsKey = some (Json.arr elems)) :
    parse_response s = Except.ok (elems.filter keepReview) ∧
    ∀ r ∈ elems.filter keepReview, r ∈ elems := by
  refine ⟨?_, fun r hr => (List.mem_filter.mp hr).1⟩
  rw [parse_response_of_loads s _ h1]
  exact parse_data_obj_arr kvs elems h2

/-- A review entry with an extra key beyond the two required ones. -/
def extraReview : Json :=
  Json.obj [(lineNumberKey, Json.num 5), (reviewCommentKey, Json.str ("ok".toList)),
    ("extra".toList, Json.bool true)]

set_option maxRecDepth 100000 in
/-- C9 witness: an entry with an extra `"extra": true` key is emitted
verbatim, extra key included, with the numeric line number kept numeric. -/
theorem claim_C9_witness :
    parse_response ("\x7b\"reviews\": [\x7b\"lineNumber\": 5, \"reviewComment\": \"ok\", \"extra\": true\x7d]\x7d".toList) =
      Except.ok [extraReview] := by
  have h := claim_C9 ("\x7b\"reviews\": [\x7b\"lineNumber\": 5, \"reviewComment\": \"ok\", \"extra\": true\x7d]\x7d".toList)
    [(reviewsKey, Json.arr [extraReview])] [extraReview] rfl rfl
  exact h.1.trans rfl

/-- C10 (implicit): when the decoded object's `"reviews"` value is a string
or an object, iteration yields only non-mapping elements (1-character
strings, resp. key strings), every one of which fails the mapping check, so
`parse_response` returns an empty sequence. -/
theorem claim_C10 (s : PyStr) (kvs : List (PyStr × Json)) (j : Json)
    (h1 : json_loads s = some (Json.obj kvs)) (h2 : objGet kvs reviewsKey = some j)
    (h3 : (∃ cs, j = Json.str cs) ∨ ∃ okvs, j = Json.obj okvs) :
    parse_response s = Except.ok [] := by
  rw [parse_response_of_loads s _ h1]
  cases h3 with
  | inl h3 =>
    obtain ⟨cs, hcs⟩ := h3
    subst hcs
    have hit : pyIter ((objGet kvs reviewsKey).getD (Json.arr [])) =
        Except.ok (cs.map (fun c => Json.str [c])) := by
      rw [h2]
      rfl
    rw [parse_data_obj_ok kvs _ hit]
    have hmap : cs.map (fun c => Json.str [c]) = (cs.map (fun c => [c])).map Json.str := by
      rw [List.map_map]
      rfl
    rw [hmap, filter_keepReview_map_str]
  | inr h3 =>
    obtain ⟨okvs, hokvs⟩ := h3
    subst hokvs
    have hit : pyIter ((objGet kvs reviewsKey).getD (Json.arr [])) =
        Except.ok ((distinctKeys (okvs.map (fun kv => kv.1))).map Json.str) := by
      rw [h2]
      rfl
    rw [parse_data_obj_ok kvs _ hit, filter_keepReview_map_str]

/-- C10 witness: a string-valued `"reviews"` yields the empty sequence. -/
theorem claim_C10_witness :
    parse_response ("\x7b\"reviews\": \"abc\"\x7d".toList) = Except.ok [] :=
  claim_C10 ("\x7b\"reviews\": \"abc\"\x7d".toList)
    [(reviewsKey, Json.str ("abc".toList))] (Json.str ("abc".toList)) rfl rfl
    (Or.inl ⟨"abc".toList, rfl⟩)

end ReviewPR
